import Mathlib

/-!
Shallow embedding of the atomix go-client primitive layer.

Source files embedded:
- `pkg/client/counter/session.go` (contains the sharded `set` package:
  `New`, `set.getPartition`, `set.Add`, `set.Remove`, `set.Contains`,
  `set.Size`, `set.Clear`, `set.Listen`, `set.Close`, `set.Delete`).
- `pkg/client/value/value.go` (`value.Set`, `value.Get`, `value.Watch`).

The `util` package (`GetPartitionIndex`, `ExecuteAsync`,
`ExecuteOrderedAsync`, `IterAsync`) and the `session` package are not in
the source tree; they are modelled from the spec, each marked in its doc
comment.

Go's `(result, error)` multi-returns are embedded as products with an
`Option GoError` component. Asynchronous fan-out is embedded by making the
nondeterministic completion order an explicit `order : List Nat` parameter
(a permutation of the partition indices); theorems quantify over it.
-/

/-- Go `error` values that appear in the embedded code: `NoPartitions`
from the partitioner, the two `errors.New` values of `value.Set`, and an
opaque transport-level error carrying a distinguishing code. -/
inductive GoError where
  | noPartitions
  | versionMismatch
  | valueMismatch
  | transport (code : Nat)
deriving DecidableEq, Repr

/-- Modelled from the spec: the key hash used by `util.GetPartitionIndex`
(absent from src/). The spec requires only a deterministic
non-cryptographic hash of the key; a 31-polynomial string hash stands in
for the Murmur-family hash. -/
def hashKey (key : String) : Nat :=
  key.foldl (fun h c => h * 31 + c.toNat) 7

/-- Modelled from the spec: `util.GetPartitionIndex` (absent from src/).
Spec 4.1: maps a string key and a partition count N to an index in [0, N)
by hash mod N; if N = 0 it returns the `NoPartitions` error. -/
def GetPartitionIndex (key : String) (numPartitions : Nat) : Except GoError Nat :=
  if numPartitions = 0 then Except.error GoError.noPartitions
  else Except.ok (hashKey key % numPartitions)

/-- Modelled from the spec: the first error observed by a fan-out, taken
in completion order (`order` is the completion order of the concurrent
invocations). -/
def firstErr {α : Type} (order : List Nat) (f : Nat → α × Option GoError) : Option GoError :=
  match order with
  | [] => none
  | i :: rest =>
    match (f i).2 with
    | some e => some e
    | none => firstErr rest f

/-- Modelled from the spec: `util.ExecuteAsync` (absent from src/),
the unordered fan-out. Spec 4.2: invoke f(0)..f(n-1) concurrently,
return results in completion order, fail-fast with the first error
observed (then no result list). `order` is the completion order. -/
def ExecuteAsync {α : Type} (order : List Nat) (f : Nat → α × Option GoError) :
    List α × Option GoError :=
  match firstErr order f with
  | some e => ([], some e)
  | none => (order.map fun i => (f i).1, none)

/-- Modelled from the spec: `util.ExecuteOrderedAsync` (absent from src/),
the ordered fan-out. Spec 4.2: invoke f(0)..f(n-1) concurrently, return
the n results in index order, fail-fast with the first error observed
(then no result list). `order` is the completion order. -/
def ExecuteOrderedAsync {α : Type} (order : List Nat) (n : Nat)
    (f : Nat → α × Option GoError) : List α × Option GoError :=
  match firstErr order f with
  | some e => ([], some e)
  | none => ((List.range n).map fun i => (f i).1, none)

/-- Modelled from the spec: `util.IterAsync` (absent from src/). Spec 4.2:
invoke the action concurrently for 0..n-1 and return the first error or
nil. `order` is the completion order. -/
def IterAsync (order : List Nat) (f : Nat → Option GoError) : Option GoError :=
  match order with
  | [] => none
  | i :: rest =>
    match f i with
    | some e => some e
    | none => IterAsync rest f

/-- A per-partition Set primitive (the `Set` interface implemented by
`newPartition` in the set package), embedded as its observable responses:
each operation's result is a Go-style `(result, error)` pair. -/
structure PartSet where
  add : String → Bool × Option GoError
  remove : String → Bool × Option GoError
  contains : String → Bool × Option GoError
  size : Int × Option GoError
  clear : Option GoError
  listen : Option GoError
  close : Option GoError
  delete : Option GoError

/-- Placeholder partition used for list indexing; every indexed access in
the embedded code is provably in range, so it is never actually read. -/
def defaultPart : PartSet :=
  ⟨fun _ => (false, none), fun _ => (false, none), fun _ => (false, none),
   (0, none), none, none, none, none⟩

/-- The `set` struct of the set package: namespace, name, and the ordered
per-partition primitive list. -/
structure set where
  Namespace : String
  Name : String
  partitions : List PartSet

/-- `set.New`: constructs the per-partition primitives through
`util.ExecuteOrderedAsync` over the n partition connections and wraps the
results; on error it returns `(nil, err)`. `mk i` is the outcome of
`newPartition` on partition i, `order` the fan-out completion order. -/
def set.New (order : List Nat) (ns nm : String) (n : Nat)
    (mk : Nat → PartSet × Option GoError) : Option set × Option GoError :=
  match ExecuteOrderedAsync order n mk with
  | (_, some e) => (none, some e)
  | (results, none) => (some ⟨ns, nm, results⟩, none)

/-- `set.getPartition`: `util.GetPartitionIndex(key, len(partitions))`,
then index into the partition list (the index is provably in range). -/
def set.getPartition (s : set) (key : String) : Except GoError PartSet :=
  match GetPartitionIndex key s.partitions.length with
  | Except.error e => Except.error e
  | Except.ok i => Except.ok (s.partitions.getD i defaultPart)

/-- `set.Add`: route by value to its partition; on partitioner error
return `(false, err)`, else return the partition's result unchanged. -/
def set.Add (s : set) (value : String) : Bool × Option GoError :=
  match s.getPartition value with
  | Except.error e => (false, some e)
  | Except.ok partition => partition.add value

/-- `set.Remove`: key-routed like `set.Add`. -/
def set.Remove (s : set) (value : String) : Bool × Option GoError :=
  match s.getPartition value with
  | Except.error e => (false, some e)
  | Except.ok partition => partition.remove value

/-- `set.Contains`: key-routed like `set.Add`. -/
def set.Contains (s : set) (value : String) : Bool × Option GoError :=
  match s.getPartition value with
  | Except.error e => (false, some e)
  | Except.ok partition => partition.contains value

/-- `set.Size`: unordered fan-out of the per-partition `Size` calls via
`util.ExecuteAsync`; on error return `(0, err)`, else sum the results. -/
def set.Size (s : set) (order : List Nat) : Int × Option GoError :=
  match ExecuteAsync order (fun i => (s.partitions.getD i defaultPart).size) with
  | (_, some e) => (0, some e)
  | (results, none) => (results.foldl (fun acc r => acc + r) 0, none)

/-- `set.Clear`: broadcast via `util.IterAsync`. -/
def set.Clear (s : set) (order : List Nat) : Option GoError :=
  IterAsync order (fun i => (s.partitions.getD i defaultPart).clear)

/-- `set.Listen`: broadcast via `util.IterAsync`. -/
def set.Listen (s : set) (order : List Nat) : Option GoError :=
  IterAsync order (fun i => (s.partitions.getD i defaultPart).listen)

/-- `set.Close`: broadcast via `util.IterAsync`. -/
def set.Close (s : set) (order : List Nat) : Option GoError :=
  IterAsync order (fun i => (s.partitions.getD i defaultPart).close)

/-- `set.Delete`: broadcast via `util.IterAsync`. -/
def set.Delete (s : set) (order : List Nat) : Option GoError :=
  IterAsync order (fun i => (s.partitions.getD i defaultPart).delete)

/-- Server-held state of a value primitive: the stored bytes and the
current version. Value bytes are embedded as `List Nat`. -/
structure ValueState where
  value : List Nat
  version : Nat
deriving DecidableEq, Repr

/-- `api.SetRequest` fields the embedded code reads: the value and the
conditional-set expectations. An empty `expectValue` stands for Go nil. -/
structure SetRequest where
  value : List Nat
  expectVersion : Nat
  expectValue : List Nat
deriving DecidableEq, Repr

/-- `api.SetResponse` fields the embedded code reads. -/
structure SetResponse where
  succeeded : Bool
  version : Nat
deriving DecidableEq, Repr

/-- `SetOption` values (the `IfVersion` / `IfValue` conditional-set
options), embedded by what their `beforeSet` hook writes. -/
inductive SetOption where
  | IfVersion (version : Nat)
  | IfValue (value : List Nat)
deriving DecidableEq, Repr

/-- `beforeSet`: the option writes its expectation into the request. -/
def SetOption.beforeSet (o : SetOption) (r : SetRequest) : SetRequest :=
  match o with
  | SetOption.IfVersion v => { r with expectVersion := v }
  | SetOption.IfValue v => { r with expectValue := v }

/-- The zero `api.SetRequest` (`&api.SetRequest` with no fields in Go). -/
def emptySetRequest : SetRequest := ⟨[], 0, []⟩

/-- The option-application loop of `value.Set`: run every option's
`beforeSet` hook over a request, in order. -/
def buildRequest (opts : List SetOption) (r : SetRequest) : SetRequest :=
  opts.foldl (fun r o => o.beforeSet r) r

/-- Modelled from the spec: the value service Set RPC (the server and the
session transport are outside src/). Spec 8 seed scenario 1: a Set
succeeds iff its expected version (when given) equals the current version
and its expected value (when given) equals the current value; on success
it stores the value and bumps the version, on failure it changes
nothing and reports `Succeeded = false`. -/
def serverSet (st : ValueState) (req : SetRequest) : SetResponse × ValueState :=
  if (req.expectVersion == 0 || req.expectVersion == st.version)
      && (req.expectValue.isEmpty || req.expectValue == st.value) then
    (⟨true, st.version + 1⟩, ⟨req.value, st.version + 1⟩)
  else
    (⟨false, 0⟩, st)

/-- Modelled from the spec: the value service Get query returns the
current value and version. -/
def serverGet (st : ValueState) : List Nat × Nat :=
  (st.value, st.version)

/-- `value.Set`: build the request from the options, issue it through
`session.DoCommand` (modelled from the spec as: either a transport error
`terr`, or the value service applied to the current server state), then
decode: on transport error return `(0, err)`; on `Succeeded = false`
return `(0, version-mismatch)` when an expected version was set and
`(0, value-mismatch)` otherwise; else return the response version.
The server state is threaded explicitly. -/
def value.Set (st : ValueState) (terr : Option Nat) (v : List Nat)
    (opts : List SetOption) : (Nat × Option GoError) × ValueState :=
  let request := buildRequest opts emptySetRequest
  match terr with
  | some code => ((0, some (GoError.transport code)), st)
  | none =>
    let inner := buildRequest opts ⟨v, 0, []⟩
    let result := serverSet st inner
    if !result.1.succeeded then
      if request.expectVersion > 0 then ((0, some GoError.versionMismatch), result.2)
      else ((0, some GoError.valueMismatch), result.2)
    else ((result.1.version, none), result.2)

/-- `value.Get`: issue a Get through `session.DoQuery` (modelled from the
spec like `DoCommand`); on transport error return `(nil, 0, err)`, else
the response value and version. -/
def value.Get (st : ValueState) (terr : Option Nat) : List Nat × Nat × Option GoError :=
  match terr with
  | some code => ([], 0, some (GoError.transport code))
  | none =>
    let response := serverGet st
    (response.1, response.2, none)

/-- `value.EventType` with its single constant `EventUpdated`. -/
inductive EventType where
  | EventUpdated
deriving DecidableEq, Repr

/-- `value.Event` as delivered on the watch channel (the `Type` field is
named `type` since `Type` is reserved in Lean). -/
structure Event where
  type : EventType
  value : List Nat
  version : Nat
deriving DecidableEq, Repr

/-- `api.EventResponse` fields the embedded code reads. -/
structure EventResponse where
  newValue : List Nat
  newVersion : Nat
deriving DecidableEq, Repr

/-- The receive loop of `value.Watch`: for each stream response, deliver
to the channel an `Event` with type `EventUpdated` and the response's new
value and new version, in stream order. The stream is embedded as the
list of responses it yields and the channel as the list of delivered
events. -/
def value.watchLoop (stream : List EventResponse) : List Event :=
  match stream with
  | [] => []
  | response :: rest =>
    ⟨EventType.EventUpdated, response.newValue, response.newVersion⟩ :: value.watchLoop rest

/-- Modelled from the spec: the event stream the value service emits for
a sequence of unconditional Sets (spec 8, scenario 3) — one
`EventResponse` per successful Set, carrying the new value and new
version, in order. -/
def eventsOfSets (st : ValueState) (vals : List (List Nat)) : List EventResponse :=
  match vals with
  | [] => []
  | v :: rest =>
    let result := serverSet st ⟨v, 0, []⟩
    ⟨v, result.2.version⟩ :: eventsOfSets result.2 rest

/-! Helper lemmas shared by the claims. -/

theorem firstErr_eq_none {α : Type} (order : List Nat) (f : Nat → α × Option GoError)
    (h : ∀ i ∈ order, (f i).2 = none) : firstErr order f = none := by
  induction order with
  | nil => rfl
  | cons i rest ih =>
    have hi : (f i).2 = none := h i (List.mem_cons_self i rest)
    simp only [firstErr, hi]
    exact ih fun j hj => h j (List.mem_cons_of_mem i hj)

theorem firstErr_isSome {α : Type} (order : List Nat) (f : Nat → α × Option GoError)
    (j : Nat) (e : GoError) (hj : j ∈ order) (h : (f j).2 = some e) :
    (firstErr order f).isSome = true := by
  induction order with
  | nil => cases hj
  | cons i rest ih =>
    cases hfi : (f i).2 with
    | some e2 => simp [firstErr, hfi]
    | none =>
      simp only [firstErr, hfi]
      rcases List.mem_cons.mp hj with hji | hjr
      · rw [hji] at h; rw [h] at hfi; cases hfi
      · exact ih hjr

theorem foldl_add_eq_sum (l : List Int) (a : Int) :
    l.foldl (fun acc r => acc + r) a = a + l.sum := by
  induction l generalizing a with
  | nil => simp
  | cons x xs ih => simp only [List.foldl_cons, List.sum_cons, ih]; ring

/-! Claim theorems. -/

/-- C3: for every key k and partition count N with N ≥ 1,
`GetPartitionIndex k N` succeeds with an index in [0, N), and — being a
pure function of its arguments — repeated invocations with the same
arguments return the same result. -/
theorem getPartitionIndex_total_bounded_deterministic (k : String) (n : Nat) (h : 1 ≤ n) :
    GetPartitionIndex k n = Except.ok (hashKey k % n) ∧
    hashKey k % n < n ∧
    GetPartitionIndex k n = GetPartitionIndex k n := by
  have hn : n ≠ 0 := by omega
  exact ⟨by simp [GetPartitionIndex, hn], Nat.mod_lt _ (by omega), rfl⟩

/-- C3 witness at k = "x", N = 3. -/
theorem getPartitionIndex_total_bounded_deterministic_witness :
    GetPartitionIndex "x" 3 = Except.ok (hashKey "x" % 3) ∧
    hashKey "x" % 3 < 3 ∧
    GetPartitionIndex "x" 3 = GetPartitionIndex "x" 3 :=
  getPartitionIndex_total_bounded_deterministic "x" 3 (by decide)

/-- C2: on a sharded set with N ≥ 1 partitions, the key-routed operations
`Add`, `Remove` and `Contains` on value v delegate to exactly the
partition at the index returned by the partitioner for v, and return that
partition's result unchanged. -/
theorem set_key_routed (s : set) (v : String) (h : 1 ≤ s.partitions.length) :
    GetPartitionIndex v s.partitions.length =
      Except.ok (hashKey v % s.partitions.length) ∧
    s.Add v = (s.partitions.getD (hashKey v % s.partitions.length) defaultPart).add v ∧
    s.Remove v = (s.partitions.getD (hashKey v % s.partitions.length) defaultPart).remove v ∧
    s.Contains v = (s.partitions.getD (hashKey v % s.partitions.length) defaultPart).contains v := by
  have hn : s.partitions.length ≠ 0 := by omega
  refine ⟨by simp [GetPartitionIndex, hn], ?_, ?_, ?_⟩ <;>
    simp [set.Add, set.Remove, set.Contains, set.getPartition, GetPartitionIndex, hn]

/-- A concrete per-partition set used by the witnesses. -/
def part1 : PartSet :=
  ⟨fun _ => (true, none), fun _ => (true, none), fun _ => (false, none),
   (3, none), none, none, none, none⟩

/-- A second concrete per-partition set used by the witnesses. -/
def part2 : PartSet :=
  ⟨fun _ => (true, none), fun _ => (false, none), fun _ => (true, none),
   (4, none), none, none, none, none⟩

/-- A per-partition set whose Size call fails, used by the witnesses. -/
def partBad : PartSet :=
  ⟨fun _ => (false, some (GoError.transport 9)), fun _ => (false, none),
   fun _ => (false, none), (0, some (GoError.transport 9)), none, none, none, none⟩

/-- A concrete one-partition sharded set used by the witnesses. -/
def testSet1 : set := ⟨"default", "s", [part1]⟩

/-- A concrete two-partition sharded set used by the witnesses. -/
def testSet2 : set := ⟨"default", "s", [part1, part2]⟩

/-- A two-partition sharded set whose second partition fails Size. -/
def testSetBad : set := ⟨"default", "s", [part1, partBad]⟩

/-- C2 witness on a concrete one-partition set and value "x". -/
theorem set_key_routed_witness :
    GetPartitionIndex "x" testSet1.partitions.length =
      Except.ok (hashKey "x" % testSet1.partitions.length) ∧
    testSet1.Add "x" =
      (testSet1.partitions.getD (hashKey "x" % testSet1.partitions.length) defaultPart).add "x" ∧
    testSet1.Remove "x" =
      (testSet1.partitions.getD (hashKey "x" % testSet1.partitions.length) defaultPart).remove "x" ∧
    testSet1.Contains "x" =
      (testSet1.partitions.getD (hashKey "x" % testSet1.partitions.length) defaultPart).contains "x" :=
  set_key_routed testSet1 "x" (by decide)

/-- C4: with zero partitions the partitioner returns the `NoPartitions`
error, and every key-routed operation on a sharded set with an empty
partition list returns `(false, NoPartitions)`. -/
theorem no_partitions_key_routed (ns nm v : String) :
    GetPartitionIndex v 0 = Except.error GoError.noPartitions ∧
    set.Add ⟨ns, nm, []⟩ v = (false, some GoError.noPartitions) ∧
    set.Remove ⟨ns, nm, []⟩ v = (false, some GoError.noPartitions) ∧
    set.Contains ⟨ns, nm, []⟩ v = (false, some GoError.noPartitions) :=
  ⟨rfl, rfl, rfl, rfl⟩

/-- C10: on a sharded set with an empty partition list the fan-out
operations succeed — `Size` returns `(0, nil)` and `Clear`, `Close` and
`Delete` return nil — while the key-routed operations fail with
`NoPartitions` on the same set. (With zero partitions the only possible
completion order is the empty one.) -/
theorem empty_set_fanout_succeeds (ns nm v : String) :
    set.Size ⟨ns, nm, []⟩ [] = (0, none) ∧
    set.Clear ⟨ns, nm, []⟩ [] = none ∧
    set.Close ⟨ns, nm, []⟩ [] = none ∧
    set.Delete ⟨ns, nm, []⟩ [] = none ∧
    set.Add ⟨ns, nm, []⟩ v = (false, some GoError.noPartitions) ∧
    set.Remove ⟨ns, nm, []⟩ v = (false, some GoError.noPartitions) ∧
    set.Contains ⟨ns, nm, []⟩ v = (false, some GoError.noPartitions) :=
  ⟨rfl, rfl, rfl, rfl, rfl, rfl, rfl⟩

/-- C1: on a sharded set over N partitions, for every completion order of
the fan-out and every family of per-partition results, when no
per-partition Size call errors, `set.Size` returns the sum of the sizes
returned by the per-partition Size calls (and no error). -/
theorem set_size_sums_partitions (s : set) (order : List Nat)
    (hperm : order.Perm (List.range s.partitions.length))
    (herr : ∀ i ∈ List.range s.partitions.length,
      ((s.partitions.getD i defaultPart).size).2 = none) :
    s.Size order =
      (((List.range s.partitions.length).map
        (fun i => ((s.partitions.getD i defaultPart).size).1)).sum, none) := by
  have herr2 : ∀ i ∈ order, ((s.partitions.getD i defaultPart).size).2 = none :=
    fun i hi => herr i (hperm.mem_iff.mp hi)
  have hfe : firstErr order (fun i => (s.partitions.getD i defaultPart).size) = none :=
    firstErr_eq_none _ _ herr2
  have hmap : (order.map fun i => ((s.partitions.getD i defaultPart).size).1).Perm
      ((List.range s.partitions.length).map
        fun i => ((s.partitions.getD i defaultPart).size).1) :=
    hperm.map _
  simp only [set.Size, ExecuteAsync, hfe]
  rw [foldl_add_eq_sum, hmap.sum_eq]
  simp

/-- C1 witness: a two-partition set with sizes 3 and 4 and completion
order (1, 0) yields total size 7. -/
theorem set_size_sums_partitions_witness :
    testSet2.Size [1, 0] =
      (((List.range testSet2.partitions.length).map
        (fun i => ((testSet2.partitions.getD i defaultPart).size).1)).sum, none) :=
  set_size_sums_partitions testSet2 [1, 0] (by decide) (by decide)

/-- C8: the fan-out utilities are fail-fast. If the construction of
partition j fails, `set.New` returns no set together with the first error
observed in completion order; if partition j2's Size call fails,
`set.Size` returns `(0, first error observed)`. -/
theorem fanout_fail_fast
    (order : List Nat) (ns nm : String) (n : Nat) (mk : Nat → PartSet × Option GoError)
    (j : Nat) (e : GoError) (hj : j ∈ order) (hmk : (mk j).2 = some e)
    (s : set) (order2 : List Nat) (j2 : Nat) (e2 : GoError) (hj2 : j2 ∈ order2)
    (hsz : ((s.partitions.getD j2 defaultPart).size).2 = some e2) :
    set.New order ns nm n mk = (none, firstErr order mk) ∧
    (firstErr order mk).isSome = true ∧
    s.Size order2 =
      (0, firstErr order2 (fun i => (s.partitions.getD i defaultPart).size)) ∧
    (firstErr order2 (fun i => (s.partitions.getD i defaultPart).size)).isSome = true := by
  have h1 : (firstErr order mk).isSome = true := firstErr_isSome order mk j e hj hmk
  have h2 : (firstErr order2 (fun i => (s.partitions.getD i defaultPart).size)).isSome = true :=
    firstErr_isSome order2 _ j2 e2 hj2 hsz
  obtain ⟨e3, he3⟩ := Option.isSome_iff_exists.mp h1
  obtain ⟨e4, he4⟩ := Option.isSome_iff_exists.mp h2
  refine ⟨?_, h1, ?_, h2⟩
  · simp only [set.New, ExecuteOrderedAsync, he3]
  · simp only [set.Size, ExecuteAsync, he4]

/-- C8 witness: partition 1's constructor fails and partition 1's Size
fails on a concrete two-partition set, with completion order (0, 1). -/
theorem fanout_fail_fast_witness :
    set.New [0, 1] "default" "s" 2
        (fun i => if i = 1 then (defaultPart, some (GoError.transport 5)) else (part1, none)) =
      (none, firstErr [0, 1]
        (fun i => if i = 1 then (defaultPart, some (GoError.transport 5)) else (part1, none))) ∧
    (firstErr [0, 1]
      (fun i => if i = 1 then (defaultPart, some (GoError.transport 5)) else (part1, none))).isSome = true ∧
    testSetBad.Size [0, 1] =
      (0, firstErr [0, 1] (fun i => (testSetBad.partitions.getD i defaultPart).size)) ∧
    (firstErr [0, 1] (fun i => (testSetBad.partitions.getD i defaultPart).size)).isSome = true :=
  fanout_fail_fast [0, 1] "default" "s" 2
    (fun i => if i = 1 then (defaultPart, some (GoError.transport 5)) else (part1, none))
    1 (GoError.transport 5) (by decide) (by decide)
    testSetBad [0, 1] 1 (GoError.transport 9) (by decide) (by decide)

theorem serverSet_fail (st : ValueState) (req : SetRequest)
    (h : (serverSet st req).1.succeeded = false) :
    serverSet st req = (⟨false, 0⟩, st) := by
  by_cases hc : ((req.expectVersion == 0 || req.expectVersion == st.version)
      && (req.expectValue.isEmpty || req.expectValue == st.value)) = true
  · exfalso
    unfold serverSet at h
    rw [if_pos hc] at h
    simp at h
  · unfold serverSet
    rw [if_neg hc]

theorem serverSet_success (st : ValueState) (req : SetRequest)
    (h : (serverSet st req).1.succeeded = true) :
    serverSet st req = (⟨true, st.version + 1⟩, ⟨req.value, st.version + 1⟩) := by
  by_cases hc : ((req.expectVersion == 0 || req.expectVersion == st.version)
      && (req.expectValue.isEmpty || req.expectValue == st.value)) = true
  · unfold serverSet
    rw [if_pos hc]
  · exfalso
    unfold serverSet at h
    rw [if_neg hc] at h
    simp at h

theorem buildRequest_value (opts : List SetOption) (r : SetRequest) :
    (buildRequest opts r).value = r.value := by
  induction opts generalizing r with
  | nil => rfl
  | cons o rest ih =>
    show (buildRequest rest (o.beforeSet r)).value = r.value
    rw [ih]
    cases o <;> rfl

/-- C5: if Set is invoked with an expected-version option (the built
request has expectVersion > 0) and the server reports the operation did
not succeed, then Set returns version 0 with the version-mismatch error
and the server state is unchanged (still the value and version of the
last successful Set). -/
theorem conditional_set_version_mismatch
    (st : ValueState) (v : List Nat) (opts : List SetOption)
    (hev : (buildRequest opts emptySetRequest).expectVersion > 0)
    (hfail : (serverSet st (buildRequest opts ⟨v, 0, []⟩)).1.succeeded = false) :
    value.Set st none v opts = ((0, some GoError.versionMismatch), st) := by
  have hs := serverSet_fail st _ hfail
  simp [value.Set, hs, hev]

/-- C5 witness: stored value (1) at version 2; a Set of (3) expecting
version 1 fails with version-mismatch and leaves the state unchanged. -/
theorem conditional_set_version_mismatch_witness :
    value.Set ⟨[1], 2⟩ none [3] [SetOption.IfVersion 1] =
      ((0, some GoError.versionMismatch), ⟨[1], 2⟩) :=
  conditional_set_version_mismatch ⟨[1], 2⟩ [3] [SetOption.IfVersion 1]
    (by decide) (by decide)

/-- C6: if Set(v) succeeds returning version n, a subsequent Get by the
same client with no intervening writers (the state produced by the Set,
no transport error) returns exactly (v, n). -/
theorem set_then_get (st st2 : ValueState) (v : List Nat) (opts : List SetOption) (n : Nat)
    (hset : value.Set st none v opts = ((n, none), st2)) :
    value.Get st2 none = (v, n, none) := by
  have hval : (buildRequest opts ⟨v, 0, []⟩).value = v :=
    buildRequest_value opts ⟨v, 0, []⟩
  simp only [value.Set] at hset
  split at hset
  · split at hset <;> simp at hset
  · rename_i h
    simp at h
    rw [serverSet_success _ _ h] at hset
    have hn : st.version + 1 = n := congrArg (fun p => p.1.1) hset
    have hst2 : (⟨(buildRequest opts ⟨v, 0, []⟩).value, st.version + 1⟩ : ValueState) = st2 :=
      congrArg Prod.snd hset
    rw [← hst2]
    simp [value.Get, serverGet, hval, hn]

/-- C6 witness: Set (5) on the empty value returns version 1, and Get on
the resulting state returns ((5), 1). -/
theorem set_then_get_witness : value.Get ⟨[5], 1⟩ none = ([5], 1, none) :=
  set_then_get ⟨[], 0⟩ ⟨[5], 1⟩ [5] [] 1 (by decide)

/-- C9: if Set is invoked without an expected version (the built request
has expectVersion = 0) and the server reports the operation did not
succeed, Set returns version 0 with the value-mismatch error; and
whenever Set returns any non-nil error it returns version 0. -/
theorem unconditional_set_value_mismatch_and_zero
    (st : ValueState) (v : List Nat) (opts : List SetOption) (terr : Option Nat)
    (e : GoError)
    (hev : (buildRequest opts emptySetRequest).expectVersion = 0)
    (hfail : (serverSet st (buildRequest opts ⟨v, 0, []⟩)).1.succeeded = false)
    (herr : ((value.Set st terr v opts).1).2 = some e) :
    value.Set st none v opts = ((0, some GoError.valueMismatch), st) ∧
    ((value.Set st terr v opts).1).1 = 0 := by
  constructor
  · have hs := serverSet_fail st _ hfail
    simp [value.Set, hs, hev]
  · cases terr with
    | some code => simp [value.Set]
    | none =>
      simp only [value.Set] at herr ⊢
      split
      · split <;> rfl
      · rename_i h
        rw [if_neg h] at herr
        simp at herr

/-- C9 witness: stored value (9); a Set of (3) conditional on value (7)
fails with value-mismatch and version 0. -/
theorem unconditional_set_value_mismatch_and_zero_witness :
    value.Set ⟨[9], 1⟩ none [3] [SetOption.IfValue [7]] =
      ((0, some GoError.valueMismatch), ⟨[9], 1⟩) ∧
    ((value.Set ⟨[9], 1⟩ none [3] [SetOption.IfValue [7]]).1).1 = 0 :=
  unconditional_set_value_mismatch_and_zero ⟨[9], 1⟩ [3] [SetOption.IfValue [7]]
    none GoError.valueMismatch (by decide) (by decide) (by decide)

/-- C7: the Watch loop delivers one EventUpdated event per stream
response, carrying the response's new value and new version, in stream
order; in particular, for the event stream of three consecutive Sets of
v1, v2, v3, the consumer observes exactly three EventUpdated events with
values v1, v2, v3 (and successive versions) in that order. -/
theorem watch_delivers_stream_in_order (stream : List EventResponse)
    (st : ValueState) (v1 v2 v3 : List Nat) :
    (value.watchLoop stream).length = stream.length ∧
    (∀ k, (value.watchLoop stream).get? k =
      (stream.get? k).map (fun r => ⟨EventType.EventUpdated, r.newValue, r.newVersion⟩)) ∧
    value.watchLoop (eventsOfSets st [v1, v2, v3]) =
      [⟨EventType.EventUpdated, v1, st.version + 1⟩,
       ⟨EventType.EventUpdated, v2, st.version + 2⟩,
       ⟨EventType.EventUpdated, v3, st.version + 3⟩] := by
  refine ⟨?_, ?_, ?_⟩
  · induction stream with
    | nil => rfl
    | cons r rest ih => simp [value.watchLoop, ih]
  · intro k
    induction stream generalizing k with
    | nil => simp [value.watchLoop]
    | cons r rest ih =>
      cases k with
      | zero => rfl
      | succ m => simpa [value.watchLoop] using ih m
  · simp [eventsOfSets, serverSet, value.watchLoop]
